import Mathlib

/-!
Shallow embedding of the apim-kura subscription-key backup/restore tool.

Strings from the Go source are modelled as `List Char` where positional
arithmetic matters (scope parsing: all relevant characters are ASCII, so Go's
byte indices coincide with character indices) and as Lean `String` where only
equality matters (record attributes).  Remote calls (Azure SDK listing,
secret fetch, create, delete) are plumbing in the source; the loops around
them are embedded as pure functions taking the call results as oracles, so
that the control flow, counting and call emission of the Go code are modelled
exactly.
-/

namespace Kura

/-- Go `strings.Index`: index of the first occurrence of `pat` in `s`,
`none` when absent (`-1` in Go). -/
def firstIndexOf (pat : List Char) : List Char → Option Nat
  | [] => if pat = [] then some 0 else none
  | c :: rest =>
    if pat.isPrefixOf (c :: rest) then some 0
    else (firstIndexOf pat rest).map (· + 1)

/-- Go `strings.LastIndex`: index of the last occurrence of `pat` in `s`,
`none` when absent (`-1` in Go). -/
def lastIndexOf (pat : List Char) : List Char → Option Nat
  | [] => if pat = [] then some 0 else none
  | c :: rest =>
    match lastIndexOf pat rest with
    | some i => some (i + 1)
    | none => if pat.isPrefixOf (c :: rest) then some 0 else none

/-- Go `strings.TrimRight(s, "/")`: removes every trailing `'/'`. -/
def trimRightSlash (s : List Char) : List Char :=
  (s.reverse.dropWhile (· == '/')).reverse

/-- The marker segment `"/service/"` used by `extractScopeSuffix`
(root.go, `const marker = "/service/"`). -/
def serviceMarker : List Char := "/service/".data

/-- The marker segment `"/products/"` used by `extractProductID`
(root.go, `const marker = "/products/"`). -/
def productsMarker : List Char := "/products/".data

/-- root.go `extractScopeSuffix`: locate the last `"/service/"`; if absent
return `""`; otherwise skip past `"/service/<apim-name>"`, take everything
after the following `'/'`, and trim trailing slashes. -/
def extractScopeSuffix (scope : List Char) : List Char :=
  match lastIndexOf serviceMarker scope with
  | none => []
  | some idx =>
    let rest := scope.drop (idx + serviceMarker.length)
    match firstIndexOf ['/'] rest with
    | none => []
    | some slashIdx => trimRightSlash (rest.drop (slashIdx + 1))

/-- The fixed hierarchical part of every scope built by the tool:
`"/subscriptions/<id>/resourceGroups/<rg>/providers/Microsoft.ApiManagement"`. -/
def apimRoot (azureSubscriptionID resourceGroup : List Char) : List Char :=
  "/subscriptions/".data ++ azureSubscriptionID
    ++ "/resourceGroups/".data ++ resourceGroup
    ++ "/providers/Microsoft.ApiManagement".data

/-- root.go `buildScopeFromSuffix`: full APIM scope resource ID from a suffix;
when the suffix is empty the scope is the APIM instance itself. -/
def buildScopeFromSuffix (azureSubscriptionID resourceGroup apimName suffix : List Char) :
    List Char :=
  let base := apimRoot azureSubscriptionID resourceGroup ++ serviceMarker ++ apimName
  if suffix = [] then base else base ++ '/' :: suffix

/-- root.go `extractProductID` (second restore variant): everything after the
last `"/products/"`, `""` when the marker is absent. -/
def extractProductID (scope : List Char) : List Char :=
  match lastIndexOf productsMarker scope with
  | none => []
  | some idx => scope.drop (idx + productsMarker.length)

/-- root.go `buildScope` (second restore variant): full APIM scope resource ID
for a product. -/
def buildScope (azureSubscriptionID resourceGroup apimName productID : List Char) :
    List Char :=
  apimRoot azureSubscriptionID resourceGroup ++ serviceMarker ++ apimName
    ++ productsMarker ++ productID

/-- Modelled from the claim C5 wording only (not from the source): the same
extraction algorithm but stripping a single trailing slash instead of all of
them, used to compare the claim's algorithm against the code's. -/
def stripOneTrailingSlash (s : List Char) : List Char :=
  if s.getLast? = some '/' then s.dropLast else s

/-- Modelled from the claim C5 wording only (not from the source): the
extraction algorithm as the claim states it, with a single trailing slash
stripped. -/
def extractScopeSuffixOneStrip (scope : List Char) : List Char :=
  match lastIndexOf serviceMarker scope with
  | none => []
  | some idx =>
    let rest := scope.drop (idx + serviceMarker.length)
    match firstIndexOf ['/'] rest with
    | none => []
    | some slashIdx => stripOneTrailingSlash (rest.drop (slashIdx + 1))

/-- azure client `SubscriptionInfoProperties` (wire/persisted schema): all
timestamps already projected to `YYYY-MM-DDTHH:MM:SSZ` strings, absent
optional fields projected to `""`. -/
structure SubscriptionInfoProperties where
  ownerID : String
  scope : String
  displayName : String
  state : String
  createdDate : String
  startDate : String
  endDate : String
  expirationDate : String
  notificationDate : String
  primaryKey : String
  secondaryKey : String
  stateComment : String
  allowTracing : Bool
deriving DecidableEq

/-- azure client `SubscriptionInfo`: one subscription/key record. -/
structure SubscriptionInfo where
  id : String
  name : String
  type : String
  properties : SubscriptionInfoProperties
deriving DecidableEq

/-- compare.go `filterOutMaster`: drop every record whose entity name is
`"master"`. -/
def filterOutMaster (subs : List SubscriptionInfo) : List SubscriptionInfo :=
  subs.filter (fun sub => sub.name != "master")

/-- compare.go `attributesEqual`: the equality predicate used to classify a
key-matched pair; `createdDate` is not part of it. -/
def attributesEqual (subA subB : SubscriptionInfo) : Bool :=
  subA.properties.displayName == subB.properties.displayName &&
  subA.properties.scope == subB.properties.scope &&
  subA.properties.state == subB.properties.state &&
  subA.properties.ownerID == subB.properties.ownerID &&
  subA.properties.primaryKey == subB.properties.primaryKey &&
  subA.properties.secondaryKey == subB.properties.secondaryKey &&
  subA.properties.allowTracing == subB.properties.allowTracing &&
  subA.properties.startDate == subB.properties.startDate &&
  subA.properties.endDate == subB.properties.endDate &&
  subA.properties.expirationDate == subB.properties.expirationDate &&
  subA.properties.notificationDate == subB.properties.notificationDate &&
  subA.properties.stateComment == subB.properties.stateComment

/-- compare.go `printAttributeDifferences`, projected to the list of field
names whose difference lines are printed (in source order; note that
`createdDate` is reported here although it is absent from
`attributesEqual`). -/
def printAttributeDifferences (subA subB : SubscriptionInfo) : List String :=
  (if subA.properties.displayName != subB.properties.displayName then ["displayName"] else []) ++
  (if subA.properties.scope != subB.properties.scope then ["scope"] else []) ++
  (if subA.properties.state != subB.properties.state then ["state"] else []) ++
  (if subA.properties.ownerID != subB.properties.ownerID then ["ownerId"] else []) ++
  (if subA.properties.allowTracing != subB.properties.allowTracing then ["allowTracing"] else []) ++
  (if subA.properties.createdDate != subB.properties.createdDate then ["createdDate"] else []) ++
  (if subA.properties.startDate != subB.properties.startDate then ["startDate"] else []) ++
  (if subA.properties.endDate != subB.properties.endDate then ["endDate"] else []) ++
  (if subA.properties.expirationDate != subB.properties.expirationDate then ["expirationDate"] else []) ++
  (if subA.properties.notificationDate != subB.properties.notificationDate then ["notificationDate"] else []) ++
  (if subA.properties.stateComment != subB.properties.stateComment then ["stateComment"] else [])

/-- compare.go, runCompare inner-loop condition (lines 86-87): two records
share the join key when both `primaryKey` and `secondaryKey` are equal. -/
def keysMatch (subA subB : SubscriptionInfo) : Bool :=
  subA.properties.primaryKey == subB.properties.primaryKey &&
  subA.properties.secondaryKey == subB.properties.secondaryKey

/-- Outcome of the per-record comparison in `runCompare`. -/
inductive CompareOutcome where
  | matched
  | mismatched
  | missing
deriving DecidableEq

/-- compare.go, runCompare inner loop: scan `subsB` for the first record with
matching keys (the loop breaks at the first key match); classify `matched` or
`mismatched` by `attributesEqual`, `missing` when no key match exists. -/
def classifyRecord (subA : SubscriptionInfo) (subsB : List SubscriptionInfo) : CompareOutcome :=
  match subsB.find? (fun subB => keysMatch subA subB) with
  | none => CompareOutcome.missing
  | some subB =>
    if attributesEqual subA subB then CompareOutcome.matched else CompareOutcome.mismatched

/-- Result of `runCompare`: the per-record report, the three tallies and the
signalled failure (`some n` models the non-nil error carrying the count `n`,
`none` models success). -/
structure CompareResult where
  report : List (SubscriptionInfo × CompareOutcome)
  matched : Nat
  mismatched : Nat
  missing : Nat
  failureCount : Option Nat
deriving DecidableEq

/-- compare.go `runCompare` outer loop, one line per record of A (after the
master filter): each record of A is classified against filtered B, whatever
the outcome. -/
def compareReport (subsA subsB : List SubscriptionInfo) :
    List (SubscriptionInfo × CompareOutcome) :=
  (filterOutMaster subsA).map
    (fun subA => (subA, classifyRecord subA (filterOutMaster subsB)))

/-- compare.go `runCompare` after both files are loaded: filter the master
sentinel from both sides, classify every record of A against B, count the
outcomes, and fail with count `missing + mismatched` when either is
positive.  The report is built for every record regardless of the outcome. -/
def runCompare (subsA subsB : List SubscriptionInfo) : CompareResult :=
  { report := compareReport subsA subsB
    matched := (compareReport subsA subsB).countP
      (fun entry => entry.2 == CompareOutcome.matched)
    mismatched := (compareReport subsA subsB).countP
      (fun entry => entry.2 == CompareOutcome.mismatched)
    missing := (compareReport subsA subsB).countP
      (fun entry => entry.2 == CompareOutcome.missing)
    failureCount :=
      if (compareReport subsA subsB).countP (fun entry => entry.2 == CompareOutcome.missing) > 0
          ∨ (compareReport subsA subsB).countP (fun entry => entry.2 == CompareOutcome.mismatched) > 0
        then some ((compareReport subsA subsB).countP (fun entry => entry.2 == CompareOutcome.missing)
          + (compareReport subsA subsB).countP (fun entry => entry.2 == CompareOutcome.mismatched))
        else none }

/-- Tallies and emitted remote calls of the delete loop (root.go, runDelete). -/
structure DeleteTally where
  deleted : Nat
  skipped : Nat
  failed : Nat
  calls : List String
deriving DecidableEq

/-- root.go `runDelete` per-record loop (lines 139-163): unless `--all` is
set, a record named `"master"` is skipped and counted in `skipped`; under
`--dry-run` the record is counted `deleted` without a call; otherwise a
delete call is issued and the record is counted `deleted` or `failed`
according to the call's outcome (`deleteOk` is the remote oracle, keyed by
the record name as in the source). -/
def runDeleteLoop (deleteAll deleteDryRun : Bool) (deleteOk : String → Bool) :
    List SubscriptionInfo → DeleteTally
  | [] => { deleted := 0, skipped := 0, failed := 0, calls := [] }
  | sub :: rest =>
    let t := runDeleteLoop deleteAll deleteDryRun deleteOk rest
    if !deleteAll && sub.name == "master" then
      { t with skipped := t.skipped + 1 }
    else if deleteDryRun then
      { t with deleted := t.deleted + 1 }
    else if deleteOk sub.name then
      { t with deleted := t.deleted + 1, calls := sub.name :: t.calls }
    else
      { t with failed := t.failed + 1, calls := sub.name :: t.calls }

/-- One `CreateSubscription` call as issued by the restore loop. -/
structure CreateCall where
  sid : String
  scope : List Char
  displayName : String
  primaryKey : String
  secondaryKey : String
  state : String
  ownerID : Option String
  allowTracing : Bool
deriving DecidableEq

/-- Tallies and emitted create calls of the restore loop. -/
structure RestoreTally where
  restored : Nat
  failed : Nat
  calls : List CreateCall
deriving DecidableEq

/-- root.go `runRestore` per-record loop, first (generic-suffix) variant
(lines 305-345): for every record of the backup file, rebuild the target
scope from the extracted suffix, assemble the create options (owner only
when non-empty, tracing always), and either count a dry-run as restored or
issue the create call and count `restored`/`failed` by its outcome
(`createOk` is the remote oracle, keyed by the record name).  No record is
exempted: there is no check on the entity name. -/
def runRestoreLoop (azureSubID resourceGroup apimName : List Char)
    (restoreDryRun : Bool) (createOk : String → Bool) :
    List SubscriptionInfo → RestoreTally
  | [] => { restored := 0, failed := 0, calls := [] }
  | sub :: rest =>
    let t := runRestoreLoop azureSubID resourceGroup apimName restoreDryRun createOk rest
    let scopeSuffix := extractScopeSuffix sub.properties.scope.data
    let scope := buildScopeFromSuffix azureSubID resourceGroup apimName scopeSuffix
    let call : CreateCall :=
      { sid := sub.name
        scope := scope
        displayName := sub.properties.displayName
        primaryKey := sub.properties.primaryKey
        secondaryKey := sub.properties.secondaryKey
        state := sub.properties.state
        ownerID := if sub.properties.ownerID != "" then some sub.properties.ownerID else none
        allowTracing := sub.properties.allowTracing }
    if restoreDryRun then
      { t with restored := t.restored + 1 }
    else if createOk sub.name then
      { t with restored := t.restored + 1, calls := call :: t.calls }
    else
      { t with failed := t.failed + 1, calls := call :: t.calls }

/-- Outcome of a backup run: the snapshot contents written to disk (if a file
was written at all) and whether the command reported success. -/
structure BackupOutcome where
  fileWritten : Option (List SubscriptionInfo)
  success : Bool
deriving DecidableEq

/-- cmd backup `runBackup` (both variants, after authentication), as written:
`subs, err := client.ListSubscriptions(...)` is followed by no check of that
`err` (the variable is reassigned by the next `:=`), so on a listing error
the nil slice is marshalled and written and the command still reports
success.  The listing result enters as an `Except`; a failed Go call yields a
nil slice, modelled as `[]`. -/
def runBackup (listResult : Except String (List SubscriptionInfo)) : BackupOutcome :=
  let subs := match listResult with
    | Except.ok subs => subs
    | Except.error _ => []
  { fileWritten := some subs, success := true }

/-- A subscription as returned by the Azure list pager, before secrets are
attached: optional wire fields carried as `Option` (nil pointers in Go). -/
structure WireSubscription where
  id : String
  name : String
  type : String
  ownerID : String
  scope : String
  displayName : String
  state : String
  stateComment : String
  allowTracing : Option Bool
  createdDate : Option String
  startDate : Option String
  endDate : Option String
  expirationDate : Option String
  notificationDate : Option String
deriving DecidableEq

/-- azure client `ListSubscriptions`, projection of one wire record plus its
fetched secrets into the persisted schema: absent optional fields become the
zero values `""`/`false`, present timestamps are already carried as their
formatted strings. -/
def projectWire (sub : WireSubscription) (primaryKey secondaryKey : String) :
    SubscriptionInfo :=
  { id := sub.id, name := sub.name, type := sub.type
    properties :=
      { ownerID := sub.ownerID
        scope := sub.scope
        displayName := sub.displayName
        state := sub.state
        stateComment := sub.stateComment
        allowTracing := sub.allowTracing.getD false
        createdDate := sub.createdDate.getD ""
        startDate := sub.startDate.getD ""
        endDate := sub.endDate.getD ""
        expirationDate := sub.expirationDate.getD ""
        notificationDate := sub.notificationDate.getD ""
        primaryKey := primaryKey
        secondaryKey := secondaryKey } }

/-- azure client `ListSubscriptions` loop (part_002 lines 116-173): records
are processed in emission order; for each one the secrets are fetched
(`fetchSecrets` oracle, keyed by entity name as `subClient.ListSecrets` is);
a fetch failure makes the whole listing return that wrapped error
immediately, discarding every already-projected record. -/
def ListSubscriptions (fetchSecrets : String → Except String (String × String)) :
    List WireSubscription → Except String (List SubscriptionInfo)
  | [] => Except.ok []
  | sub :: rest =>
    match fetchSecrets sub.name with
    | Except.error e =>
      Except.error ("failed to get secrets for subscription " ++ sub.name ++ ": " ++ e)
    | Except.ok (primaryKey, secondaryKey) =>
      match ListSubscriptions fetchSecrets rest with
      | Except.error e => Except.error e
      | Except.ok tail => Except.ok (projectWire sub primaryKey secondaryKey :: tail)

/-- Concrete baseline properties used by the concrete test records below. -/
def sampleProperties : SubscriptionInfoProperties :=
  { ownerID := ""
    scope := "/subscriptions/src/resourceGroups/srg/providers/Microsoft.ApiManagement/service/srcapim/products/p1"
    displayName := "Sample"
    state := "active"
    createdDate := "2024-01-01T00:00:00Z"
    startDate := ""
    endDate := ""
    expirationDate := ""
    notificationDate := ""
    primaryKey := "pk-1"
    secondaryKey := "sk-1"
    stateComment := ""
    allowTracing := false }

/-- A backed-up record whose entity name is the built-in sentinel `master`
(instance-level scope, as the real master subscription has). -/
def masterBackupRecord : SubscriptionInfo :=
  { id := "/subscriptions/src/resourceGroups/srg/providers/Microsoft.ApiManagement/service/srcapim/subscriptions/master"
    name := "master"
    type := "Microsoft.ApiManagement/service/subscriptions"
    properties :=
      { sampleProperties with
          scope := "/subscriptions/src/resourceGroups/srg/providers/Microsoft.ApiManagement/service/srcapim"
          displayName := "Built-in all-access subscription"
          primaryKey := "master-pk"
          secondaryKey := "master-sk" } }

/-- Concrete record of snapshot A for the comparison counterexamples. -/
def cmpRecA : SubscriptionInfo :=
  { id := "idA", name := "subA", type := "t", properties := sampleProperties }

/-- Concrete record of snapshot B sharing `cmpRecA`'s keys but differing in
`displayName`; it precedes the identical record in snapshot B. -/
def cmpRecBDiff : SubscriptionInfo :=
  { id := "idB1", name := "subB1", type := "t",
    properties := { sampleProperties with displayName := "Other" } }

/-- Concrete record of snapshot B identical in every compared attribute to
`cmpRecA`. -/
def cmpRecBSame : SubscriptionInfo :=
  { id := "idB2", name := "subB2", type := "t", properties := sampleProperties }

/-- Concrete non-master record with both secret keys empty (snapshot A side). -/
def emptyKeysRecA : SubscriptionInfo :=
  { id := "idEA", name := "subEA", type := "t",
    properties := { sampleProperties with primaryKey := "", secondaryKey := "" } }

/-- Concrete non-master record with both secret keys empty (snapshot B side),
differing from `emptyKeysRecA` in `displayName`. -/
def emptyKeysRecB : SubscriptionInfo :=
  { id := "idEB", name := "subEB", type := "t",
    properties :=
      { sampleProperties with
          primaryKey := ""
          secondaryKey := ""
          displayName := "Same keys, other name" } }

/-- Concrete pair for the createdDate asymmetry: equal in every compared
attribute, different `createdDate`. -/
def createdA : SubscriptionInfo :=
  { id := "idCA", name := "subCA", type := "t", properties := sampleProperties }

/-- See `createdA`. -/
def createdB : SubscriptionInfo :=
  { id := "idCB", name := "subCB", type := "t",
    properties := { sampleProperties with createdDate := "2025-02-02T00:00:00Z" } }

/-- Concrete wire records for the listing counterexample. -/
def wireRec1 : WireSubscription :=
  { id := "id1", name := "s1", type := "t", ownerID := "", scope := "sc1",
    displayName := "D1", state := "active", stateComment := "",
    allowTracing := some false, createdDate := none, startDate := none,
    endDate := none, expirationDate := none, notificationDate := none }

/-- See `wireRec1`. -/
def wireRec2 : WireSubscription :=
  { id := "id2", name := "s2", type := "t", ownerID := "", scope := "sc2",
    displayName := "D2", state := "active", stateComment := "",
    allowTracing := some false, createdDate := none, startDate := none,
    endDate := none, expirationDate := none, notificationDate := none }

/-- Concrete secret-fetch oracle failing exactly on `wireRec1`. -/
def failingFetch (name : String) : Except String (String × String) :=
  if name = "s1" then Except.error "boom" else Except.ok ("p", "q")

/-! Helper lemmas about the scope-string functions. -/

theorem firstIndexOf_slash_of_not_mem (inst : List Char) (h : '/' ∉ inst) :
    firstIndexOf ['/'] inst = none := by
  induction inst with
  | nil => rfl
  | cons c cs ih =>
    have hc : (('/' : Char) == c) = false := by
      rw [beq_eq_false_iff_ne]
      intro hEq
      exact h (by rw [hEq]; exact List.mem_cons_self c cs)
    have hcs : '/' ∉ cs := fun hm => h (List.mem_cons_of_mem _ hm)
    simp [firstIndexOf, List.isPrefixOf, hc, ih hcs]

theorem firstIndexOf_slash_append (inst rest : List Char) (h : '/' ∉ inst) :
    firstIndexOf ['/'] (inst ++ '/' :: rest) = some inst.length := by
  induction inst with
  | nil => simp [firstIndexOf, List.isPrefixOf]
  | cons c cs ih =>
    have hc : (('/' : Char) == c) = false := by
      rw [beq_eq_false_iff_ne]
      intro hEq
      exact h (by rw [hEq]; exact List.mem_cons_self c cs)
    have hcs : '/' ∉ cs := fun hm => h (List.mem_cons_of_mem _ hm)
    simp [firstIndexOf, List.isPrefixOf, hc, ih hcs]

theorem drop_append_cons (inst xs : List Char) :
    (inst ++ '/' :: xs).drop (inst.length + 1) = xs := by
  have hshape : inst ++ '/' :: xs = (inst ++ ['/']) ++ xs := by simp
  rw [hshape]
  exact List.drop_left' (by simp)

theorem getLast?_ne_of_not_mem {s : List Char} {c : Char} (h : c ∉ s) :
    s.getLast? ≠ some c := by
  intro hc
  rcases List.mem_getLast?_eq_getLast (show c ∈ s.getLast? from hc) with ⟨hne, hEq⟩
  exact h (hEq ▸ List.getLast_mem hne)

theorem trimRightSlash_eq_self (s : List Char) (h : s.getLast? ≠ some '/') :
    trimRightSlash s = s := by
  unfold trimRightSlash
  rcases hrev : s.reverse with _ | ⟨a, t⟩
  · simp [List.reverse_eq_nil_iff.mp hrev]
  · have ha : s.getLast? = some a := by
      rw [← List.head?_reverse, hrev]
      rfl
    have hne : (a == '/') = false := by
      rw [beq_eq_false_iff_ne]
      intro hEq
      exact h (by rw [ha, hEq])
    rw [List.dropWhile_cons, hne]
    simp only [Bool.false_eq_true, if_false]
    rw [← hrev, List.reverse_reverse]

theorem extractScopeSuffix_no_marker (scope : List Char)
    (h : lastIndexOf serviceMarker scope = none) :
    extractScopeSuffix scope = [] := by
  unfold extractScopeSuffix
  rw [h]

theorem extractScopeSuffix_structured_none (P tail : List Char)
    (h : lastIndexOf serviceMarker (P ++ serviceMarker ++ tail) = some P.length)
    (hf : firstIndexOf ['/'] tail = none) :
    extractScopeSuffix (P ++ serviceMarker ++ tail) = [] := by
  unfold extractScopeSuffix
  rw [h]
  have hdrop : (P ++ serviceMarker ++ tail).drop (P.length + serviceMarker.length) = tail :=
    List.drop_left' (by simp)
  simp only [hdrop, hf]

theorem extractScopeSuffix_structured_some (P tail : List Char) (slashIdx : Nat)
    (h : lastIndexOf serviceMarker (P ++ serviceMarker ++ tail) = some P.length)
    (hf : firstIndexOf ['/'] tail = some slashIdx) :
    extractScopeSuffix (P ++ serviceMarker ++ tail)
      = trimRightSlash (tail.drop (slashIdx + 1)) := by
  unfold extractScopeSuffix
  rw [h]
  have hdrop : (P ++ serviceMarker ++ tail).drop (P.length + serviceMarker.length) = tail :=
    List.drop_left' (by simp)
  simp only [hdrop, hf]

theorem buildScopeFromSuffix_shape (sub rg inst suffix : List Char) (h : suffix ≠ []) :
    buildScopeFromSuffix sub rg inst suffix
      = (apimRoot sub rg ++ serviceMarker) ++ (inst ++ '/' :: suffix) := by
  unfold buildScopeFromSuffix
  rw [if_neg h, List.append_assoc]

/-- C4 counterexample: the suffix `"p/"` is non-empty and contains no
`"/service/"` marker, yet the round trip returns `"p"`, not `"p/"`, because
`extractScopeSuffix` trims trailing slashes. -/
theorem roundTrip_trailing_slash_counterexample :
    extractScopeSuffix (buildScopeFromSuffix "s".data "g".data "i".data "p/".data)
        = "p".data
      ∧ extractScopeSuffix (buildScopeFromSuffix "s".data "g".data "i".data "p/".data)
        ≠ "p/".data := by
  decide

/-- C4 (amended): for every subscription id and resource group, every
instance name containing no `'/'`, and every non-empty suffix that does not
end in `'/'` and introduces no occurrence of `"/service/"` after the
canonical one in the built scope (so that the builder's marker is the last
one), extracting the suffix from the built scope returns exactly the
original suffix. -/
theorem extract_build_roundTrip (sub rg inst suffix : List Char)
    (hinst : '/' ∉ inst) (hsuffix : suffix ≠ [])
    (hlast : suffix.getLast? ≠ some '/')
    (hmarker : lastIndexOf serviceMarker (buildScopeFromSuffix sub rg inst suffix)
      = some (apimRoot sub rg).length) :
    extractScopeSuffix (buildScopeFromSuffix sub rg inst suffix) = suffix := by
  rw [buildScopeFromSuffix_shape sub rg inst suffix hsuffix] at hmarker ⊢
  rw [extractScopeSuffix_structured_some (apimRoot sub rg) (inst ++ '/' :: suffix)
        inst.length hmarker (firstIndexOf_slash_append inst suffix hinst),
      drop_append_cons]
  exact trimRightSlash_eq_self suffix hlast

/-- C4 witness: a concrete product-level round trip through the amended
theorem. -/
theorem extract_build_roundTrip_witness :
    extractScopeSuffix (buildScopeFromSuffix "s".data "g".data "i".data "products/p1".data)
      = "products/p1".data :=
  extract_build_roundTrip "s".data "g".data "i".data "products/p1".data
    (by decide) (by decide) (by decide) (by decide)

/-- C5 counterexample: on the scope `"/service/i/p//"` the code strips every
trailing slash and returns `"p"`, while the algorithm of the claim (strip
one trailing slash) would return `"p/"`. -/
theorem extract_trims_all_counterexample :
    extractScopeSuffixOneStrip "/service/i/p//".data
        ≠ extractScopeSuffix "/service/i/p//".data
      ∧ extractScopeSuffix "/service/i/p//".data = "p".data := by
  decide

/-- C5 (amended): `extractScopeSuffix` follows the described algorithm with
all trailing slashes stripped (not just one): it returns `""` when the
marker is absent; for a scope ending at the instance name (with or without a
trailing slash) it returns `""`; and in general it takes everything after
the `'/'` following the instance name and strips every trailing `'/'`.  The
hypotheses say the named marker occurrence is the last one and the instance
name is a single path segment; the function is total, so it never errors. -/
theorem extractScopeSuffix_algorithm :
    (∀ scope : List Char, lastIndexOf serviceMarker scope = none →
        extractScopeSuffix scope = [])
    ∧ (∀ P inst : List Char, '/' ∉ inst →
        lastIndexOf serviceMarker (P ++ serviceMarker ++ inst) = some P.length →
        extractScopeSuffix (P ++ serviceMarker ++ inst) = [])
    ∧ (∀ P inst : List Char, '/' ∉ inst →
        lastIndexOf serviceMarker (P ++ serviceMarker ++ (inst ++ ['/'])) = some P.length →
        extractScopeSuffix (P ++ serviceMarker ++ (inst ++ ['/'])) = [])
    ∧ (∀ P inst suffix : List Char, '/' ∉ inst →
        lastIndexOf serviceMarker (P ++ serviceMarker ++ (inst ++ '/' :: suffix))
          = some P.length →
        extractScopeSuffix (P ++ serviceMarker ++ (inst ++ '/' :: suffix))
          = trimRightSlash suffix) := by
  refine ⟨extractScopeSuffix_no_marker, ?_, ?_, ?_⟩
  · intro P inst hinst h
    exact extractScopeSuffix_structured_none P inst h
      (firstIndexOf_slash_of_not_mem inst hinst)
  · intro P inst hinst h
    rw [extractScopeSuffix_structured_some P (inst ++ ['/']) inst.length h
          (firstIndexOf_slash_append inst [] hinst)]
    rw [drop_append_cons]
    rfl
  · intro P inst suffix hinst h
    rw [extractScopeSuffix_structured_some P (inst ++ '/' :: suffix) inst.length h
          (firstIndexOf_slash_append inst suffix hinst)]
    rw [drop_append_cons]

/-- C5 witness: the four cases of the amended algorithm at concrete scopes. -/
theorem extractScopeSuffix_algorithm_witness :
    extractScopeSuffix "/no/marker/here".data = []
      ∧ extractScopeSuffix ("/x".data ++ serviceMarker ++ "apim".data) = []
      ∧ extractScopeSuffix ("/x".data ++ serviceMarker ++ ("apim".data ++ ['/'])) = []
      ∧ extractScopeSuffix
          ("/x".data ++ serviceMarker ++ ("apim".data ++ '/' :: "products/p1".data))
        = trimRightSlash "products/p1".data :=
  ⟨extractScopeSuffix_algorithm.1 "/no/marker/here".data (by decide),
   extractScopeSuffix_algorithm.2.1 "/x".data "apim".data (by decide) (by decide),
   extractScopeSuffix_algorithm.2.2.1 "/x".data "apim".data (by decide) (by decide),
   extractScopeSuffix_algorithm.2.2.2 "/x".data "apim".data "products/p1".data
     (by decide) (by decide)⟩

theorem productsMarker_cons : productsMarker = '/' :: "products/".data := rfl

/-- C9: for a backup scope of the form
`<prefix>/service/<instance>/products/<id>` — instance segment and id free of
`'/'`, id non-empty, the displayed `"/service/"` and `"/products/"`
occurrences being the last ones — the generic-suffix restore variant
(`extractScopeSuffix` + `buildScopeFromSuffix`) and the product-id restore
variant (`extractProductID` + `buildScope`) build the identical target scope
for the same target subscription id, resource group and instance name. -/
theorem restore_variants_agree
    (P instSrc productID sub rg inst : List Char)
    (hS : '/' ∉ instSrc) (hD : '/' ∉ productID) (hDne : productID ≠ [])
    (hs : lastIndexOf serviceMarker
        (P ++ serviceMarker ++ (instSrc ++ productsMarker ++ productID)) = some P.length)
    (hp : lastIndexOf productsMarker
        (P ++ serviceMarker ++ (instSrc ++ productsMarker ++ productID))
      = some (P.length + serviceMarker.length + instSrc.length)) :
    buildScopeFromSuffix sub rg inst
        (extractScopeSuffix (P ++ serviceMarker ++ (instSrc ++ productsMarker ++ productID)))
      = buildScope sub rg inst
        (extractProductID (P ++ serviceMarker ++ (instSrc ++ productsMarker ++ productID))) := by
  have htail : instSrc ++ productsMarker ++ productID
      = instSrc ++ '/' :: ("products/".data ++ productID) := by
    rw [productsMarker_cons, List.append_assoc, List.cons_append]
  have hextract : extractScopeSuffix
      (P ++ serviceMarker ++ (instSrc ++ productsMarker ++ productID))
      = "products/".data ++ productID := by
    rw [htail] at hs ⊢
    rw [extractScopeSuffix_structured_some P (instSrc ++ '/' :: ("products/".data ++ productID))
          instSrc.length hs (firstIndexOf_slash_append instSrc _ hS),
        drop_append_cons]
    refine trimRightSlash_eq_self _ ?_
    rw [List.getLast?_append_of_ne_nil _ hDne]
    exact getLast?_ne_of_not_mem hD
  have hpid : extractProductID
      (P ++ serviceMarker ++ (instSrc ++ productsMarker ++ productID)) = productID := by
    unfold extractProductID
    rw [hp]
    have hshape : P ++ serviceMarker ++ (instSrc ++ productsMarker ++ productID)
        = (P ++ serviceMarker ++ instSrc ++ productsMarker) ++ productID := by
      simp [List.append_assoc]
    rw [hshape]
    exact List.drop_left' (by simp [List.length_append]; omega)
  rw [hextract, hpid]
  have hne : "products/".data ++ productID ≠ [] := by
    intro hnil
    exact absurd (List.append_eq_nil.mp hnil).1 (by decide)
  unfold buildScopeFromSuffix buildScope
  rw [if_neg hne, productsMarker_cons]
  simp [List.append_assoc]

/-- C9 witness: concrete source scope and target environment through the
theorem. -/
theorem restore_variants_agree_witness :
    buildScopeFromSuffix "ts".data "tg".data "ti".data
        (extractScopeSuffix ("/subscriptions/x/resourceGroups/y/providers/Microsoft.ApiManagement".data
          ++ serviceMarker ++ ("src".data ++ productsMarker ++ "p1".data)))
      = buildScope "ts".data "tg".data "ti".data
        (extractProductID ("/subscriptions/x/resourceGroups/y/providers/Microsoft.ApiManagement".data
          ++ serviceMarker ++ ("src".data ++ productsMarker ++ "p1".data))) :=
  restore_variants_agree
    "/subscriptions/x/resourceGroups/y/providers/Microsoft.ApiManagement".data
    "src".data "p1".data "ts".data "tg".data "ti".data
    (by decide) (by decide) (by decide) (by decide) (by decide)

/-! Comparator theorems. -/

theorem compare_counts_zero_iff (subsA subsB : List SubscriptionInfo) :
    ((runCompare subsA subsB).missing = 0 ∧ (runCompare subsA subsB).mismatched = 0) ↔
      ∀ subA ∈ filterOutMaster subsA,
        classifyRecord subA (filterOutMaster subsB) = CompareOutcome.matched := by
  show ((compareReport subsA subsB).countP _ = 0 ∧ (compareReport subsA subsB).countP _ = 0) ↔ _
  rw [List.countP_eq_zero, List.countP_eq_zero]
  constructor
  · rintro ⟨hmiss, hmism⟩ subA hmem
    have hin : (subA, classifyRecord subA (filterOutMaster subsB)) ∈ compareReport subsA subsB :=
      List.mem_map_of_mem _ hmem
    have h1 := hmiss _ hin
    have h2 := hmism _ hin
    cases hcl : classifyRecord subA (filterOutMaster subsB) <;> simp_all
  · intro hall
    constructor <;>
    · intro entry hmem
      rcases List.mem_map.mp hmem with ⟨subA, hsubA, rfl⟩
      simp [hall subA hsubA]

/-- C6 counterexample: snapshot B holds two records with the same key pair;
the first differs from the record of A in `displayName`, the second is
identical in every compared attribute.  Every record of A therefore has a
key-equal, attribute-equal counterpart in B, yet the comparison fails with
count 1, because classification uses the first key match only. -/
theorem compare_first_match_counterexample :
    (∀ subA ∈ filterOutMaster [cmpRecA],
        ∃ subB ∈ filterOutMaster [cmpRecBDiff, cmpRecBSame],
          keysMatch subA subB = true ∧ attributesEqual subA subB = true)
      ∧ (runCompare [cmpRecA] [cmpRecBDiff, cmpRecBSame]).failureCount = some 1 := by
  decide

/-- C6 (amended): the comparison succeeds (no failure is signalled) if and
only if, after the master sentinel is dropped from both sides, every record
of snapshot A is classified matched — where each record of A is classified
against the FIRST record of B sharing its key pair.  Otherwise the signalled
failure count equals mismatched + missing, and the per-record report covers
every filtered record of A regardless of the outcome. -/
theorem runCompare_success_iff (subsA subsB : List SubscriptionInfo) :
    ((runCompare subsA subsB).failureCount = none ↔
      ∀ subA ∈ filterOutMaster subsA,
        classifyRecord subA (filterOutMaster subsB) = CompareOutcome.matched)
    ∧ (∀ n, (runCompare subsA subsB).failureCount = some n →
        n = (runCompare subsA subsB).mismatched + (runCompare subsA subsB).missing)
    ∧ (runCompare subsA subsB).report.length = (filterOutMaster subsA).length := by
  have hfc : (runCompare subsA subsB).failureCount
      = if (runCompare subsA subsB).missing > 0 ∨ (runCompare subsA subsB).mismatched > 0
        then some ((runCompare subsA subsB).missing + (runCompare subsA subsB).mismatched)
        else none := rfl
  refine ⟨?_, ?_, ?_⟩
  · rw [hfc]
    by_cases hc : (runCompare subsA subsB).missing > 0 ∨ (runCompare subsA subsB).mismatched > 0
    · rw [if_pos hc]
      constructor
      · intro h
        cases h
      · intro hall
        have hzero := (compare_counts_zero_iff subsA subsB).mpr hall
        omega
    · rw [if_neg hc]
      have hzero : (runCompare subsA subsB).missing = 0
          ∧ (runCompare subsA subsB).mismatched = 0 := by omega
      exact iff_of_true rfl ((compare_counts_zero_iff subsA subsB).mp hzero)
  · intro n hn
    rw [hfc] at hn
    by_cases hc : (runCompare subsA subsB).missing > 0 ∨ (runCompare subsA subsB).mismatched > 0
    · rw [if_pos hc] at hn
      have := Option.some.inj hn
      omega
    · rw [if_neg hc] at hn
      cases hn
  · show (compareReport subsA subsB).length = _
    exact List.length_map _ _

/-- C6 witness: a concrete comparison succeeding through the amended
theorem (all filtered records of A classified matched). -/
theorem runCompare_success_iff_witness :
    (runCompare [cmpRecA] [cmpRecBSame]).failureCount = none :=
  (runCompare_success_iff [cmpRecA] [cmpRecBSame]).1.mpr (by decide)

/-- C7: two records whose keys are equal and that agree on displayName,
scope, state, ownerId, allowTracing, startDate, endDate, expirationDate,
notificationDate and stateComment are classified matched even when their
`createdDate` values differ: `createdDate` is absent from the equality
predicate and appears exactly in the printed difference report when the two
values differ. -/
theorem attributesEqual_ignores_createdDate (subA subB : SubscriptionInfo)
    (hdn : subA.properties.displayName = subB.properties.displayName)
    (hsc : subA.properties.scope = subB.properties.scope)
    (hst : subA.properties.state = subB.properties.state)
    (how : subA.properties.ownerID = subB.properties.ownerID)
    (hpk : subA.properties.primaryKey = subB.properties.primaryKey)
    (hsk : subA.properties.secondaryKey = subB.properties.secondaryKey)
    (hat : subA.properties.allowTracing = subB.properties.allowTracing)
    (hsd : subA.properties.startDate = subB.properties.startDate)
    (hed : subA.properties.endDate = subB.properties.endDate)
    (hxd : subA.properties.expirationDate = subB.properties.expirationDate)
    (hnd : subA.properties.notificationDate = subB.properties.notificationDate)
    (hcm : subA.properties.stateComment = subB.properties.stateComment) :
    attributesEqual subA subB = true
      ∧ classifyRecord subA [subB] = CompareOutcome.matched
      ∧ ("createdDate" ∈ printAttributeDifferences subA subB
          ↔ subA.properties.createdDate ≠ subB.properties.createdDate) := by
  have hattrs : attributesEqual subA subB = true := by
    simp [attributesEqual, hdn, hsc, hst, how, hpk, hsk, hat, hsd, hed, hxd, hnd, hcm]
  have hkeys : keysMatch subA subB = true := by
    simp [keysMatch, hpk, hsk]
  refine ⟨hattrs, ?_, ?_⟩
  · simp [classifyRecord, List.find?_cons, hkeys, hattrs]
  · simp only [printAttributeDifferences, hdn, hsc, hst, how, hat, hsd, hed, hxd, hnd, hcm,
      bne_self_eq_false, Bool.false_eq_true, if_false, List.nil_append, List.append_nil]
    by_cases hcd : subA.properties.createdDate = subB.properties.createdDate <;>
      simp [hcd]

/-- C7 witness: a concrete pair equal everywhere but in `createdDate`. -/
theorem attributesEqual_ignores_createdDate_witness :
    attributesEqual createdA createdB = true
      ∧ classifyRecord createdA [createdB] = CompareOutcome.matched
      ∧ ("createdDate" ∈ printAttributeDifferences createdA createdB
          ↔ createdA.properties.createdDate ≠ createdB.properties.createdDate) :=
  attributesEqual_ignores_createdDate createdA createdB
    rfl rfl rfl rfl rfl rfl rfl rfl rfl rfl rfl rfl

/-- C10: the comparator joins purely on string equality of the key pair, with
no validity check on the secrets: a non-master record of A whose two keys
are both empty is classified matched or mismatched — never missing —
whenever filtered B contains any record whose two keys are also both
empty. -/
theorem compare_joins_on_keys_only (subsA subsB : List SubscriptionInfo)
    (subA : SubscriptionInfo) (hmem : subA ∈ filterOutMaster subsA)
    (hpk : subA.properties.primaryKey = "") (hsk : subA.properties.secondaryKey = "")
    (hB : ∃ subB ∈ filterOutMaster subsB,
        subB.properties.primaryKey = "" ∧ subB.properties.secondaryKey = "") :
    (subA, classifyRecord subA (filterOutMaster subsB)) ∈ (runCompare subsA subsB).report
      ∧ classifyRecord subA (filterOutMaster subsB) ≠ CompareOutcome.missing := by
  constructor
  · exact List.mem_map_of_mem _ hmem
  · rcases hB with ⟨subB, hmemB, hpkB, hskB⟩
    have hfind : ((filterOutMaster subsB).find? (fun b => keysMatch subA b)).isSome := by
      rw [List.find?_isSome]
      exact ⟨subB, hmemB, by simp [keysMatch, hpk, hsk, hpkB, hskB]⟩
    unfold classifyRecord
    cases hF : (filterOutMaster subsB).find? (fun b => keysMatch subA b) with
    | none =>
      rw [hF] at hfind
      simp at hfind
    | some b =>
      by_cases hab : attributesEqual subA b = true <;> simp [hab]

/-- C10 witness: two concrete snapshots whose only records carry empty key
pairs but different display names. -/
theorem compare_joins_on_keys_only_witness :
    (emptyKeysRecA, classifyRecord emptyKeysRecA (filterOutMaster [emptyKeysRecB]))
        ∈ (runCompare [emptyKeysRecA] [emptyKeysRecB]).report
      ∧ classifyRecord emptyKeysRecA (filterOutMaster [emptyKeysRecB])
          ≠ CompareOutcome.missing :=
  compare_joins_on_keys_only [emptyKeysRecA] [emptyKeysRecB] emptyKeysRecA
    (by decide) rfl rfl ⟨emptyKeysRecB, by decide, rfl, rfl⟩

/-! Delete theorems. -/

theorem runDeleteLoop_no_all_skipped (deleteDryRun : Bool) (deleteOk : String → Bool)
    (subs : List SubscriptionInfo) :
    (runDeleteLoop false deleteDryRun deleteOk subs).skipped
      = subs.countP (fun sub => sub.name == "master") := by
  induction subs with
  | nil => rfl
  | cons sub rest ih =>
    by_cases h : sub.name = "master"
    · simp [runDeleteLoop, h, List.countP_cons, ih]
    · have hb : (sub.name == "master") = false := by rwa [beq_eq_false_iff_ne]
      cases deleteDryRun <;> cases hok : deleteOk sub.name <;>
        simp [runDeleteLoop, hb, hok, List.countP_cons, ih]

theorem runDeleteLoop_no_all_calls (deleteDryRun : Bool) (deleteOk : String → Bool)
    (subs : List SubscriptionInfo) :
    "master" ∉ (runDeleteLoop false deleteDryRun deleteOk subs).calls := by
  induction subs with
  | nil => simp [runDeleteLoop]
  | cons sub rest ih =>
    by_cases h : sub.name = "master"
    · simpa [runDeleteLoop, h] using ih
    · have hb : (sub.name == "master") = false := by rwa [beq_eq_false_iff_ne]
      have hne : "master" ≠ sub.name := fun hEq => h hEq.symm
      cases deleteDryRun with
      | true => simpa [runDeleteLoop, hb] using ih
      | false =>
        cases hok : deleteOk sub.name <;>
          simp [runDeleteLoop, hb, hok, List.mem_cons, hne, ih]

theorem runDeleteLoop_no_all_processed (deleteDryRun : Bool) (deleteOk : String → Bool)
    (subs : List SubscriptionInfo) :
    (runDeleteLoop false deleteDryRun deleteOk subs).deleted
        + (runDeleteLoop false deleteDryRun deleteOk subs).failed
      = subs.countP (fun sub => sub.name != "master") := by
  induction subs with
  | nil => rfl
  | cons sub rest ih =>
    by_cases h : sub.name = "master"
    · simp [runDeleteLoop, h, List.countP_cons, ih]
    · have hb : (sub.name == "master") = false := by rwa [beq_eq_false_iff_ne]
      have hcnt : (sub :: rest).countP (fun s => s.name != "master")
          = rest.countP (fun s => s.name != "master") + 1 := by
        simp [List.countP_cons, bne, hb]
      rw [hcnt, ← ih]
      cases deleteDryRun <;> cases hok : deleteOk sub.name <;>
        simp [runDeleteLoop, hb, hok] <;> omega

theorem runDeleteLoop_all_skipped (deleteDryRun : Bool) (deleteOk : String → Bool)
    (subs : List SubscriptionInfo) :
    (runDeleteLoop true deleteDryRun deleteOk subs).skipped = 0 := by
  induction subs with
  | nil => rfl
  | cons sub rest ih =>
    cases deleteDryRun <;> cases hok : deleteOk sub.name <;>
      simp [runDeleteLoop, hok, ih]

theorem runDeleteLoop_all_calls (deleteDryRun : Bool) (deleteOk : String → Bool)
    (subs : List SubscriptionInfo) :
    (runDeleteLoop true deleteDryRun deleteOk subs).calls
      = if deleteDryRun then [] else subs.map (fun sub => sub.name) := by
  induction subs with
  | nil => cases deleteDryRun <;> rfl
  | cons sub rest ih =>
    cases deleteDryRun with
    | true => simpa [runDeleteLoop] using ih
    | false =>
      cases hok : deleteOk sub.name <;> simp [runDeleteLoop, hok] <;> simpa using ih

/-- C8: with the `--all` override unset the delete loop never issues a delete
call for a record named `master`, counts every such record in the skipped
tally, and counts exactly the non-master records in deleted + failed; with
`--all` set nothing is skipped and (outside dry-run) a delete call is issued
for every record, `master` included. -/
theorem runDelete_master_handling (deleteDryRun : Bool) (deleteOk : String → Bool)
    (subs : List SubscriptionInfo) :
    (runDeleteLoop false deleteDryRun deleteOk subs).skipped
        = subs.countP (fun sub => sub.name == "master")
      ∧ "master" ∉ (runDeleteLoop false deleteDryRun deleteOk subs).calls
      ∧ (runDeleteLoop false deleteDryRun deleteOk subs).deleted
          + (runDeleteLoop false deleteDryRun deleteOk subs).failed
        = subs.countP (fun sub => sub.name != "master")
      ∧ (runDeleteLoop true deleteDryRun deleteOk subs).skipped = 0
      ∧ (runDeleteLoop true deleteDryRun deleteOk subs).calls
          = if deleteDryRun then [] else subs.map (fun sub => sub.name) :=
  ⟨runDeleteLoop_no_all_skipped deleteDryRun deleteOk subs,
   runDeleteLoop_no_all_calls deleteDryRun deleteOk subs,
   runDeleteLoop_no_all_processed deleteDryRun deleteOk subs,
   runDeleteLoop_all_skipped deleteDryRun deleteOk subs,
   runDeleteLoop_all_calls deleteDryRun deleteOk subs⟩

/-- C8 witness: concrete instantiation on a listing holding the master record
and an ordinary record. -/
theorem runDelete_master_handling_witness :
    (runDeleteLoop false false (fun _ => true) [masterBackupRecord, cmpRecA]).skipped
        = [masterBackupRecord, cmpRecA].countP (fun sub => sub.name == "master")
      ∧ "master" ∉ (runDeleteLoop false false (fun _ => true) [masterBackupRecord, cmpRecA]).calls
      ∧ (runDeleteLoop false false (fun _ => true) [masterBackupRecord, cmpRecA]).deleted
          + (runDeleteLoop false false (fun _ => true) [masterBackupRecord, cmpRecA]).failed
        = [masterBackupRecord, cmpRecA].countP (fun sub => sub.name != "master")
      ∧ (runDeleteLoop true false (fun _ => true) [masterBackupRecord, cmpRecA]).skipped = 0
      ∧ (runDeleteLoop true false (fun _ => true) [masterBackupRecord, cmpRecA]).calls
          = if false then [] else [masterBackupRecord, cmpRecA].map (fun sub => sub.name) :=
  runDelete_master_handling false (fun _ => true) [masterBackupRecord, cmpRecA]

/-! Restore, backup and listing theorems. -/

/-- C1 evidence: the restore loop issues a create call for a backed-up record
named `master` and counts it among the succeeded, exactly as for any other
record; no separate skip tally exists in the code. -/
theorem runRestore_master_is_created :
    (runRestoreLoop "tsub".data "trg".data "tapim".data false (fun _ => true)
        [masterBackupRecord]).calls.map (fun call => call.sid) = ["master"]
      ∧ (runRestoreLoop "tsub".data "trg".data "tapim".data false (fun _ => true)
          [masterBackupRecord]).restored = 1
      ∧ (runRestoreLoop "tsub".data "trg".data "tapim".data false (fun _ => true)
          [masterBackupRecord]).failed = 0 := by
  decide

/-- C2 evidence: when the listing call fails, `runBackup` still writes a
snapshot file (holding the marshalled nil slice) and reports success,
because the listing error is never checked. -/
theorem runBackup_writes_on_list_error :
    runBackup (Except.error "transport failure")
      = { fileWritten := some [], success := true } := rfl

/-- C3 counterexample: the secret fetch fails on the first record; the
listing aborts with that wrapped error instead of recording the failure and
continuing to the second record. -/
theorem listSubscriptions_aborts_counterexample :
    ListSubscriptions failingFetch [wireRec1, wireRec2]
      = Except.error "failed to get secrets for subscription s1: boom" := rfl

/-- C3 (amended): when the per-record secret fetch fails for some record
(every earlier record fetching fine), the whole listing aborts immediately,
returning that record's wrapped error and discarding all earlier results;
nothing is recorded or counted and no later record is processed. -/
theorem listSubscriptions_aborts_on_secret_error
    (fetchSecrets : String → Except String (String × String))
    (pre : List WireSubscription) (sub : WireSubscription) (rest : List WireSubscription)
    (e : String)
    (hpre : ∀ q ∈ pre, ∃ pk sk, fetchSecrets q.name = Except.ok (pk, sk))
    (herr : fetchSecrets sub.name = Except.error e) :
    ListSubscriptions fetchSecrets (pre ++ sub :: rest)
      = Except.error ("failed to get secrets for subscription " ++ sub.name ++ ": " ++ e) := by
  revert hpre
  induction pre with
  | nil =>
    intro _
    simp [ListSubscriptions, herr]
  | cons q qs ih =>
    intro hpre
    rcases hpre q (List.mem_cons_self q qs) with ⟨pk, sk, hq⟩
    have hqs : ∀ r ∈ qs, ∃ pk sk, fetchSecrets r.name = Except.ok (pk, sk) :=
      fun r hr => hpre r (List.mem_cons_of_mem _ hr)
    simp [ListSubscriptions, hq, ih hqs]

/-- C3 witness: one healthy record followed by the failing one. -/
theorem listSubscriptions_aborts_witness :
    ListSubscriptions failingFetch [wireRec2, wireRec1]
      = Except.error "failed to get secrets for subscription s1: boom" :=
  listSubscriptions_aborts_on_secret_error failingFetch [wireRec2] wireRec1 [] "boom"
    (by
      intro q hq
      rw [List.mem_singleton.mp hq]
      exact ⟨"p", "q", rfl⟩)
    rfl

end Kura
